import Mathlib

/-!
Shallow embedding of `src/nss.c` from nss-mdns: the NSS module entry points
`_nss_mdns_gethostbyname2_r`, `_nss_mdns_gethostbyname_r` and
`_nss_mdns_gethostbyaddr_r`, together with the result-accumulator callbacks
`ipv4_callback`, `ipv6_callback` and `name_callback`.

Modelling conventions:
* C strings are lists of their pre-NUL bytes (`List Nat`), so `strlen` is
  `List.length` and `strcpy` writes `s ++ [0]`.
* Pointers into the caller buffer are offsets (`Nat`); a nullable pointer is
  `Option Nat` (with `none` for `NULL`).
* `sizeof(char*) = 8` (LP64), `sizeof(ipv4_address_t) = 4`,
  `sizeof(ipv6_address_t) = 16`.
* Writes into the caller buffer are recorded as a list of `Write`s (offset
  plus datum); memory contents after the call are recovered by `memAt`,
  which gives the last write covering an offset.
* The external query collaborator (`mdns_open_socket`, `mdns_query_name`,
  `mdns_query_ipv4`, `mdns_query_ipv6`) is a parameter: its outcomes (open
  success, query success, the stream of results delivered to the callback)
  are inputs of the embedded functions.
* `assert` failure (which aborts the process, skipping the `finish` label)
  is modelled by the `aborted` flag of the result.
* The trace flags `opened`, `queried` and the counter `closeCount` record the
  interaction with the collaborator for the resource-lifecycle claims.
-/

set_option linter.unusedVariables false

namespace NssMdns

/-- sizeof(char*) on the modelled LP64 platform. -/
def ptrSize : Nat := 8

/-- sizeof(ipv4_address_t): 4 bytes. -/
def ipv4Size : Nat := 4

/-- sizeof(ipv6_address_t): 16 bytes. -/
def ipv6Size : Nat := 16

/-- MAX_ENTRIES from nss.c. -/
def MAX_ENTRIES : Nat := 16

/-- AF_INET constant (Linux). -/
def AF_INET : Int := 2

/-- AF_INET6 constant (Linux). -/
def AF_INET6 : Int := 10

/-- errno EINVAL. -/
def EINVAL : Nat := 22

/-- errno ERANGE. -/
def ERANGE : Nat := 34

/-- errno ETIMEDOUT. -/
def ETIMEDOUT : Nat := 110

/-- h_errno NO_RECOVERY. -/
def NO_RECOVERY : Nat := 3

/-- h_errno HOST_NOT_FOUND. -/
def HOST_NOT_FOUND : Nat := 1

/-- The values of `enum nss_status` used by nss.c. -/
inductive NssStatus where
  | success
  | notfound
  | tryagain
  | unavail
deriving DecidableEq, Repr

/-- Build variants of nss.c: compiled with NSS_IPV4_ONLY, with NSS_IPV6_ONLY,
or with neither (both families supported). -/
inductive Variant where
  | ipv4Only
  | ipv6Only
  | both
deriving DecidableEq, Repr

/-- struct userdata: the result accumulator. `entries` abstracts the union
`data` as the ordered list of stored payloads (address bytes, or name bytes
without the terminating NUL). -/
structure Userdata where
  count : Nat
  data_len : Nat
  entries : List (List Nat)
deriving DecidableEq, Repr

/-- The accumulator as initialised by the entry points (count = 0, data_len = 0). -/
def emptyUserdata : Userdata := ⟨0, 0, []⟩

/-- ipv4_callback from nss.c: drop when count has reached MAX_ENTRIES, else
store the address and add sizeof(ipv4_address_t) to data_len. -/
def ipv4_callback (ipv4 : List Nat) (u : Userdata) : Userdata :=
  if MAX_ENTRIES ≤ u.count then u
  else ⟨u.count + 1, u.data_len + ipv4Size, u.entries ++ [ipv4]⟩

/-- ipv6_callback from nss.c: drop when count has reached MAX_ENTRIES, else
store the address and add sizeof(ipv6_address_t) to data_len. -/
def ipv6_callback (ipv6 : List Nat) (u : Userdata) : Userdata :=
  if MAX_ENTRIES ≤ u.count then u
  else ⟨u.count + 1, u.data_len + ipv6Size, u.entries ++ [ipv6]⟩

/-- name_callback from nss.c: drop when count has reached MAX_ENTRIES, else
store a copy of the name and add strlen(name)+1 to data_len. -/
def name_callback (name : List Nat) (u : Userdata) : Userdata :=
  if MAX_ENTRIES ≤ u.count then u
  else ⟨u.count + 1, u.data_len + (name.length + 1), u.entries ++ [name]⟩

/-- A datum written into the caller buffer: raw bytes, or an 8-byte pointer
slot holding an offset into the buffer (`none` = NULL). -/
inductive Datum where
  | bytes (bs : List Nat)
  | ptr (p : Option Nat)
deriving DecidableEq, Repr

/-- Byte size occupied by a datum. -/
def Datum.size : Datum → Nat
  | .bytes bs => bs.length
  | .ptr _ => ptrSize

/-- Safety predicate for a datum: when it is a non-NULL pointer slot, the
stored offset lies strictly below `n` (i.e. inside a buffer of size `n`). -/
def Datum.ptrTargetsBelow (d : Datum) (n : Nat) : Prop :=
  match d with
  | .ptr (some p) => p < n
  | _ => True

/-- One write into the caller buffer at a given offset. -/
structure Write where
  off : Nat
  datum : Datum
deriving DecidableEq, Repr

/-- Byte size of a write. -/
def Write.size (w : Write) : Nat := w.datum.size

/-- Does write `w` cover buffer offset `o`? -/
def Write.covers (w : Write) (o : Nat) : Bool :=
  decide (w.off ≤ o) && decide (o < w.off + w.size)

/-- The content of one buffer cell: a plain byte, the first cell of a pointer
slot (carrying the pointer value), or a non-initial cell of a pointer slot. -/
inductive Slot where
  | byte (b : Nat)
  | ptrCell (p : Option Nat)
  | ptrRest
deriving DecidableEq, Repr

/-- The cell a write puts at relative offset `j` inside its range. -/
def Write.cellAt (w : Write) (j : Nat) : Slot :=
  match w.datum with
  | .bytes bs => .byte (bs.getD j 0)
  | .ptr p => if j = 0 then .ptrCell p else .ptrRest

/-- Buffer contents at offset `o` after a list of writes (later writes win). -/
def memAt (ws : List Write) (o : Nat) : Option Slot :=
  ws.foldl (fun acc w => if w.covers o then some (w.cellAt (o - w.off)) else acc) none

/-- The fields of `struct hostent` that nss.c assigns. `none` means the field
was not written by the call; pointer fields hold buffer offsets. -/
structure Hostent where
  h_name : Option Nat := none
  h_aliases : Option Nat := none
  h_addrtype : Option Int := none
  h_length : Option Nat := none
  h_addr_list : Option Nat := none
deriving DecidableEq, Repr

/-- Result of one entry-point invocation: the returned status, the values
stored through `errnop` / `h_errnop` (`none` = never written), the buffer
writes in program order, the hostent fields, and the collaborator trace
(`opened`: mdns_open_socket succeeded; `queried`: a query primitive was
invoked; `closeCount`: number of `close(fd)` calls; `aborted`: an `assert`
failed, aborting before `finish`). -/
structure CallResult where
  status : NssStatus
  errnop : Option Nat := none
  h_errnop : Option Nat := none
  writes : List Write := []
  hres : Hostent := {}
  opened : Bool := false
  queried : Bool := false
  closeCount : Nat := 0
  aborted : Bool := false
deriving DecidableEq, Repr

/-- Collaborator outcomes for a forward lookup: result of `mdns_open_socket`
(`some fd` on success), the `errno` it leaves on failure, and the result of
`mdns_query_name` (`some stream` = nonnegative return, with `stream` the
addresses delivered to the callback in order; `none` = negative return). -/
structure NameCollab where
  openFd : Option Nat
  openErrno : Nat
  queryName : Option (List (List Nat))
deriving DecidableEq, Repr

/-- Collaborator outcomes for a reverse lookup: result of `mdns_open_socket`,
its failure `errno`, and the result of `mdns_query_ipv4` / `mdns_query_ipv6`
(`some names` = nonnegative return with the delivered names; `none` =
negative return). -/
structure AddrCollab where
  openFd : Option Nat
  openErrno : Nat
  queryAddr : Option (List (List Nat))
deriving DecidableEq, Repr

/-- The accumulator produced by `mdns_query_name`: the delivered addresses are
fed, in order, to `ipv4_callback` (when af == AF_INET) or `ipv6_callback`
(otherwise), starting from the zero-initialised userdata. -/
def nameAccum (af : Int) (stream : List (List Nat)) : Userdata :=
  stream.foldl
    (fun u a => if af = AF_INET then ipv4_callback a u else ipv6_callback a u)
    emptyUserdata

/-- The accumulator produced by `mdns_query_ipv4` / `mdns_query_ipv6`: the
delivered names are fed, in order, to `name_callback`, starting from the
zero-initialised userdata. -/
def addrAccum (names : List (List Nat)) : Userdata :=
  names.foldl (fun u n => name_callback n u) emptyUserdata

/-- The address-family guard of nss.c (the negation of the `if` conditions
selected by the NSS_IPV4_ONLY / NSS_IPV6_ONLY preprocessor variants). -/
def familyOk (v : Variant) (af : Int) : Bool :=
  match v with
  | .ipv4Only => af == AF_INET
  | .ipv6Only => af == AF_INET6
  | .both => af == AF_INET || af == AF_INET6

/-- The width selection `address_length = af == AF_INET ? sizeof(ipv4_address_t) : sizeof(ipv6_address_t)`. -/
def widthOf (af : Int) : Nat :=
  if af = AF_INET then ipv4Size else ipv6Size

/-- The `finish:` label: `if (fd >= 0) close(fd); return status;`.
Skipped when an assert aborted the call. -/
def finishClose (r : CallResult) : CallResult :=
  if r.aborted then r
  else { r with closeCount := if r.opened then 1 else 0 }

/-- The address-pointer-array writes of the forward lookup: the loop
`for (i = 0; i < u.count; i++) ptrarray[i] = buffer+astart+address_length*i;`
followed by `ptrarray[count] = NULL`. -/
def addrPtrWrites (base astart w n : Nat) : List Write :=
  (List.range n).map (fun i => ⟨base + ptrSize * i, .ptr (some (astart + w * i))⟩)
    ++ [⟨base + ptrSize * n, .ptr none⟩]

/-- Body of `_nss_mdns_gethostbyname2_r` (everything before the `finish`
label); `status` is initialised to NSS_STATUS_UNAVAIL. -/
def gethostbyname2Body (v : Variant) (c : NameCollab) (name : List Nat)
    (af : Int) (buflen : Nat) : CallResult :=
  if ¬ familyOk v af then
    { status := .unavail, errnop := some EINVAL, h_errnop := some NO_RECOVERY }
  else
    let address_length := widthOf af
    if buflen < ptrSize + (name.length + 1) then
      { status := .tryagain, errnop := some ERANGE, h_errnop := some NO_RECOVERY }
    else
      match c.openFd with
      | none =>
        { status := .unavail, errnop := some c.openErrno,
          h_errnop := some NO_RECOVERY }
      | some _fd =>
        match c.queryName with
        | none =>
          { status := .unavail, errnop := some ETIMEDOUT,
            h_errnop := some HOST_NOT_FOUND, opened := true, queried := true }
        | some stream =>
          let u := nameAccum af stream
          let w1 : Write := ⟨0, .ptr none⟩
          let w2 : Write := ⟨ptrSize, .bytes (name ++ [0])⟩
          let index := ptrSize + (name.length + 1)
          let h1 : Hostent :=
            { h_aliases := some 0, h_name := some ptrSize,
              h_addrtype := some af, h_length := some address_length }
          if buflen < index + u.data_len + ptrSize * (u.count + 1) then
            { status := .tryagain, errnop := some ERANGE,
              h_errnop := some NO_RECOVERY, writes := [w1, w2], hres := h1,
              opened := true, queried := true }
          else
            let astart := index
            let l := u.count * address_length
            let w3 : Write := ⟨astart, .bytes u.entries.flatten⟩
            let index2 := index + l
            { status := .success,
              writes := [w1, w2, w3] ++ addrPtrWrites index2 astart address_length u.count,
              hres := { h1 with h_addr_list := some index2 },
              opened := true, queried := true }

/-- Function `_nss_mdns_gethostbyname2_r` from nss.c. -/
def gethostbyname2_r (v : Variant) (c : NameCollab) (name : List Nat)
    (af : Int) (buflen : Nat) : CallResult :=
  finishClose (gethostbyname2Body v c name af buflen)

/-- The per-variant default family of `_nss_mdns_gethostbyname_r`:
AF_INET6 under NSS_IPV6_ONLY, AF_INET otherwise. -/
def defaultAf (v : Variant) : Int :=
  match v with
  | .ipv6Only => AF_INET6
  | _ => AF_INET

/-- Function `_nss_mdns_gethostbyname_r` from nss.c: delegate to
`_nss_mdns_gethostbyname2_r` with the build-variant default family. -/
def gethostbyname_r (v : Variant) (c : NameCollab) (name : List Nat)
    (buflen : Nat) : CallResult :=
  gethostbyname2_r v c name (defaultAf v) buflen

/-- Body of `_nss_mdns_gethostbyaddr_r` (everything before the `finish`
label). Mirrors the source: `*errnop = EINVAL; *h_errnop = NO_RECOVERY;`
happens first, unconditionally; `addr` is the queried address (a list of
`len` bytes read through the caller pointer). -/
def gethostbyaddrBody (v : Variant) (c : AddrCollab) (addr : List Nat)
    (len : Int) (af : Int) (buflen : Nat) : CallResult :=
  let address_length := widthOf af
  if len ≠ (address_length : Int) ∨ ¬ familyOk v af then
    { status := .unavail, errnop := some EINVAL, h_errnop := some NO_RECOVERY }
  else
    if buflen < ptrSize + address_length then
      { status := .tryagain, errnop := some ERANGE, h_errnop := some NO_RECOVERY }
    else
      match c.openFd with
      | none =>
        { status := .unavail, errnop := some c.openErrno,
          h_errnop := some NO_RECOVERY }
      | some _fd =>
        match c.queryAddr with
        | none =>
          { status := .unavail, errnop := some ETIMEDOUT,
            h_errnop := some HOST_NOT_FOUND, opened := true, queried := true }
        | some names =>
          let u := addrAccum names
          let w1 : Write := ⟨0, .ptr none⟩
          let h1 : Hostent := { h_aliases := some 0 }
          if u.count = 0 then
            { status := .unavail, errnop := some EINVAL,
              h_errnop := some NO_RECOVERY, writes := [w1], hres := h1,
              opened := true, queried := true, aborted := true }
          else
            let name0 := u.entries.headD []
            if buflen < (name0.length + 1) + ptrSize + address_length + ptrSize * 2 then
              { status := .tryagain, errnop := some ERANGE,
                h_errnop := some NO_RECOVERY, writes := [w1], hres := h1,
                opened := true, queried := true }
            else
              let w2 : Write := ⟨ptrSize, .bytes (name0 ++ [0])⟩
              let index := ptrSize + (name0.length + 1)
              let astart := index
              let w3 : Write := ⟨astart, .bytes addr⟩
              let index2 := astart + address_length
              let w4 : Write := ⟨index2, .ptr (some astart)⟩
              let w5 : Write := ⟨index2 + ptrSize, .ptr none⟩
              { status := .success, errnop := some EINVAL,
                h_errnop := some NO_RECOVERY,
                writes := [w1, w2, w3, w4, w5],
                hres :=
                  { h_aliases := some 0, h_name := some ptrSize,
                    h_addrtype := some af, h_length := some address_length,
                    h_addr_list := some index2 },
                opened := true, queried := true }

/-- Function `_nss_mdns_gethostbyaddr_r` from nss.c. -/
def gethostbyaddr_r (v : Variant) (c : AddrCollab) (addr : List Nat)
    (len : Int) (af : Int) (buflen : Nat) : CallResult :=
  finishClose (gethostbyaddrBody v c addr len af buflen)

/-! ### Named results for each exit path -/

/-- Result of the invalid-address-family path (both entry points). -/
def invalidResult : CallResult :=
  { status := .unavail, errnop := some EINVAL, h_errnop := some NO_RECOVERY }

/-- Result of the early (coarse) capacity-check failure (both entry points). -/
def coarseFailResult : CallResult :=
  { status := .tryagain, errnop := some ERANGE, h_errnop := some NO_RECOVERY }

/-- Result of the mdns_open_socket failure path (both entry points). -/
def openFailResult (e : Nat) : CallResult :=
  { status := .unavail, errnop := some e, h_errnop := some NO_RECOVERY }

/-- Result of the negative-query path (both entry points): note the returned
status stays NSS_STATUS_UNAVAIL; only h_errno carries HOST_NOT_FOUND. -/
def queryFailResult : CallResult :=
  { status := .unavail, errnop := some ETIMEDOUT, h_errnop := some HOST_NOT_FOUND,
    opened := true, queried := true, closeCount := 1 }

/-- Result of the precise capacity-check failure of the forward lookup: the
alias terminator and the name copy are already in the buffer, and four
hostent fields are already set. -/
def preciseFailResult (name : List Nat) (af : Int) : CallResult :=
  { status := .tryagain, errnop := some ERANGE, h_errnop := some NO_RECOVERY,
    writes := [⟨0, .ptr none⟩, ⟨ptrSize, .bytes (name ++ [0])⟩],
    hres := { h_aliases := some 0, h_name := some ptrSize,
              h_addrtype := some af, h_length := some (widthOf af) },
    opened := true, queried := true, closeCount := 1 }

/-- Result of a successful forward lookup. -/
def forwardSuccessResult (name : List Nat) (af : Int) (stream : List (List Nat)) :
    CallResult :=
  let u := nameAccum af stream
  let index := ptrSize + (name.length + 1)
  let index2 := index + u.count * widthOf af
  { status := .success,
    writes := [⟨0, .ptr none⟩, ⟨ptrSize, .bytes (name ++ [0])⟩,
               ⟨index, .bytes u.entries.flatten⟩]
      ++ addrPtrWrites index2 index (widthOf af) u.count,
    hres := { h_aliases := some 0, h_name := some ptrSize, h_addrtype := some af,
              h_length := some (widthOf af), h_addr_list := some index2 },
    opened := true, queried := true, closeCount := 1 }

/-- Result of the aborted reverse lookup (assert failure on an empty
accumulator): the `finish` label is never reached, so the channel is not
closed. -/
def abortResult : CallResult :=
  { status := .unavail, errnop := some EINVAL, h_errnop := some NO_RECOVERY,
    writes := [⟨0, .ptr none⟩], hres := { h_aliases := some 0 },
    opened := true, queried := true, aborted := true }

/-- Result of the precise capacity-check failure of the reverse lookup: the
alias terminator is already in the buffer and h_aliases already set. -/
def reversePreciseFailResult : CallResult :=
  { status := .tryagain, errnop := some ERANGE, h_errnop := some NO_RECOVERY,
    writes := [⟨0, .ptr none⟩], hres := { h_aliases := some 0 },
    opened := true, queried := true, closeCount := 1 }

/-- Result of a successful reverse lookup. -/
def reverseSuccessResult (addr : List Nat) (af : Int) (names : List (List Nat)) :
    CallResult :=
  let name0 := (addrAccum names).entries.headD []
  let index := ptrSize + (name0.length + 1)
  let index2 := index + widthOf af
  { status := .success, errnop := some EINVAL, h_errnop := some NO_RECOVERY,
    writes := [⟨0, .ptr none⟩, ⟨ptrSize, .bytes (name0 ++ [0])⟩,
               ⟨index, .bytes addr⟩, ⟨index2, .ptr (some index)⟩,
               ⟨index2 + ptrSize, .ptr none⟩],
    hres := { h_aliases := some 0, h_name := some ptrSize, h_addrtype := some af,
              h_length := some (widthOf af), h_addr_list := some index2 },
    opened := true, queried := true, closeCount := 1 }

/-- Generic form of the three callbacks: append the entry and add its size
`f e` to `data_len` while `count < MAX_ENTRIES`, else do nothing. -/
def offer (f : List Nat → Nat) (e : List Nat) (u : Userdata) : Userdata :=
  if MAX_ENTRIES ≤ u.count then u
  else ⟨u.count + 1, u.data_len + f e, u.entries ++ [e]⟩

/-! ### Accumulator lemmas -/

theorem ipv4_callback_eq_offer : ipv4_callback = offer fun _ => ipv4Size := rfl

theorem ipv6_callback_eq_offer : ipv6_callback = offer fun _ => ipv6Size := rfl

theorem name_callback_eq_offer : name_callback = offer fun n => n.length + 1 := rfl

theorem sum_map_const {α : Type} (l : List α) (w : Nat) :
    (l.map fun _ => w).sum = l.length * w := by
  induction l with
  | nil => simp
  | cons a l ih => simp [ih, Nat.succ_mul, Nat.add_comm]

theorem foldl_offer_add (f : List Nat → Nat) :
    ∀ (l : List (List Nat)) (u : Userdata), u.count + l.length ≤ MAX_ENTRIES →
      l.foldl (fun u e => offer f e u) u =
        ⟨u.count + l.length, u.data_len + (l.map f).sum, u.entries ++ l⟩ := by
  intro l
  induction l with
  | nil => intro u _; simp
  | cons a l ih =>
    intro u h
    have hlen : u.count + (l.length + 1) ≤ MAX_ENTRIES := by
      simpa using h
    have hlt : ¬ MAX_ENTRIES ≤ u.count := by omega
    have hstep : offer f a u = ⟨u.count + 1, u.data_len + f a, u.entries ++ [a]⟩ := by
      simp [offer, hlt]
    simp only [List.foldl_cons, hstep]
    rw [ih ⟨u.count + 1, u.data_len + f a, u.entries ++ [a]⟩ (by simp; omega)]
    simp only [List.length_cons, List.map_cons, List.sum_cons, List.append_assoc,
      List.singleton_append, Userdata.mk.injEq]
    refine ⟨by omega, by omega, trivial⟩

theorem foldl_offer_sat (f : List Nat → Nat) :
    ∀ (l : List (List Nat)) (u : Userdata), MAX_ENTRIES ≤ u.count →
      l.foldl (fun u e => offer f e u) u = u := by
  intro l
  induction l with
  | nil => intro u _; rfl
  | cons a l ih =>
    intro u h
    have hstep : offer f a u = u := by simp [offer, h]
    simp only [List.foldl_cons, hstep]
    exact ih u h

/-- Characterisation of a fold of `offer f` from the empty accumulator:
exactly the first MAX_ENTRIES entries are kept, `count` saturates at
MAX_ENTRIES, and `data_len` sums the sizes of the kept entries. -/
theorem foldl_offer_spec (f : List Nat → Nat) (l : List (List Nat)) :
    l.foldl (fun u e => offer f e u) emptyUserdata =
      ⟨min l.length MAX_ENTRIES, ((l.take MAX_ENTRIES).map f).sum,
        l.take MAX_ENTRIES⟩ := by
  by_cases hl : l.length ≤ MAX_ENTRIES
  · rw [List.take_of_length_le hl]
    rw [foldl_offer_add f l emptyUserdata (by simpa [emptyUserdata] using hl)]
    simp [emptyUserdata, Nat.min_eq_left hl]
  · have hsplit : l = l.take MAX_ENTRIES ++ l.drop MAX_ENTRIES :=
      (List.take_append_drop MAX_ENTRIES l).symm
    have hlen : (l.take MAX_ENTRIES).length = MAX_ENTRIES := by
      rw [List.length_take]; omega
    conv_lhs => rw [hsplit]
    rw [List.foldl_append]
    rw [foldl_offer_add f (l.take MAX_ENTRIES) emptyUserdata
      (by simp [emptyUserdata, hlen])]
    rw [foldl_offer_sat f (l.drop MAX_ENTRIES) _ (by simp [emptyUserdata, hlen])]
    simp only [emptyUserdata, hlen, Nat.zero_add, List.nil_append, Userdata.mk.injEq]
    refine ⟨by omega, trivial, trivial⟩

/-- The forward-lookup accumulator, characterised. -/
theorem nameAccum_spec (af : Int) (stream : List (List Nat)) :
    nameAccum af stream =
      ⟨min stream.length MAX_ENTRIES,
        (min stream.length MAX_ENTRIES) * widthOf af,
        stream.take MAX_ENTRIES⟩ := by
  have hcb : (fun (u : Userdata) (a : List Nat) =>
      if af = AF_INET then ipv4_callback a u else ipv6_callback a u) =
      fun u a => offer (fun _ => widthOf af) a u := by
    funext u a
    by_cases h : af = AF_INET
    · simp [h, widthOf, ipv4_callback_eq_offer]
    · simp [h, widthOf, ipv6_callback_eq_offer]
  rw [nameAccum, hcb, foldl_offer_spec]
  have hsum : ((stream.take MAX_ENTRIES).map fun _ => widthOf af).sum =
      (min stream.length MAX_ENTRIES) * widthOf af := by
    rw [sum_map_const, List.length_take, Nat.min_comm]
  rw [hsum]

/-- The reverse-lookup accumulator, characterised. -/
theorem addrAccum_spec (names : List (List Nat)) :
    addrAccum names =
      ⟨min names.length MAX_ENTRIES,
        ((names.take MAX_ENTRIES).map fun n => n.length + 1).sum,
        names.take MAX_ENTRIES⟩ := by
  have hcb : (fun (u : Userdata) (n : List Nat) => name_callback n u) =
      fun u n => offer (fun n => n.length + 1) n u := by
    funext u n
    simp [name_callback_eq_offer]
  rw [addrAccum, hcb, foldl_offer_spec]

/-! ### `finish` label projections -/

theorem finishClose_status (r : CallResult) : (finishClose r).status = r.status := by
  unfold finishClose; split <;> rfl

theorem finishClose_errnop (r : CallResult) : (finishClose r).errnop = r.errnop := by
  unfold finishClose; split <;> rfl

theorem finishClose_h_errnop (r : CallResult) :
    (finishClose r).h_errnop = r.h_errnop := by
  unfold finishClose; split <;> rfl

theorem finishClose_writes (r : CallResult) : (finishClose r).writes = r.writes := by
  unfold finishClose; split <;> rfl

theorem finishClose_hres (r : CallResult) : (finishClose r).hres = r.hres := by
  unfold finishClose; split <;> rfl

theorem finishClose_opened (r : CallResult) : (finishClose r).opened = r.opened := by
  unfold finishClose; split <;> rfl

theorem finishClose_queried (r : CallResult) : (finishClose r).queried = r.queried := by
  unfold finishClose; split <;> rfl

theorem finishClose_aborted (r : CallResult) : (finishClose r).aborted = r.aborted := by
  unfold finishClose; split <;> rfl

/-! ### Memory-model lemmas -/

theorem memAt_foldl_acc (o : Nat) :
    ∀ (ws : List Write) (acc : Option Slot),
      ws.foldl (fun acc w => if w.covers o then some (w.cellAt (o - w.off)) else acc) acc =
        (memAt ws o).elim acc some := by
  intro ws
  induction ws with
  | nil => intro acc; rfl
  | cons w ws ih =>
    intro acc
    have hm : memAt (w :: ws) o =
        (memAt ws o).elim (if w.covers o then some (w.cellAt (o - w.off)) else none) some := by
      rw [memAt, List.foldl_cons]
      exact ih _
    rw [List.foldl_cons, ih, hm]
    cases hmem : memAt ws o with
    | some s => rfl
    | none => cases h : w.covers o <;> simp [h]

theorem memAt_append (ws₁ ws₂ : List Write) (o : Nat) :
    memAt (ws₁ ++ ws₂) o = (memAt ws₂ o).elim (memAt ws₁ o) some := by
  rw [memAt, List.foldl_append, ← memAt, memAt_foldl_acc]

theorem memAt_singleton (w : Write) (o : Nat) :
    memAt [w] o = if w.covers o then some (w.cellAt (o - w.off)) else none := rfl

theorem memAt_not_covered :
    ∀ (ws : List Write) (o : Nat), (∀ w ∈ ws, w.covers o = false) → memAt ws o = none := by
  intro ws
  induction ws with
  | nil => intro o _; rfl
  | cons w ws ih =>
    intro o h
    have hw : w.covers o = false := h w (List.mem_cons_self w ws)
    have hrest := ih o (fun w hmem => h w (List.mem_cons_of_mem _ hmem))
    rw [show w :: ws = [w] ++ ws from rfl, memAt_append, hrest]
    simp [memAt_singleton, hw]

theorem memAt_map_range (g : Nat → Write) :
    ∀ (n o i : Nat), i < n → (g i).covers o = true →
      (∀ j, j < n → j ≠ i → (g j).covers o = false) →
      memAt ((List.range n).map g) o = some ((g i).cellAt (o - (g i).off)) := by
  intro n
  induction n with
  | zero => intro o i hi; omega
  | succ n ih =>
    intro o i hi hcov hdisj
    rw [List.range_succ, List.map_append, List.map_cons, List.map_nil, memAt_append]
    by_cases hin : i = n
    · subst hin
      simp [memAt_singleton, hcov]
    · have hi' : i < n := by omega
      have hn : (g n).covers o = false := hdisj n (by omega) (fun h => hin h.symm)
      rw [memAt_singleton, hn]
      simp only [Bool.false_eq_true, if_false, Option.elim]
      exact ih o i hi' hcov (fun j hj hne => hdisj j (by omega) hne)

/-- Reading the NULL terminator slot of the address-pointer array. -/
theorem memAt_addrPtrWrites_term (base astart w n : Nat) :
    memAt (addrPtrWrites base astart w n) (base + ptrSize * n) =
      some (.ptrCell none) := by
  rw [addrPtrWrites, memAt_append, memAt_singleton]
  have hcov : (Write.mk (base + ptrSize * n) (.ptr none)).covers (base + ptrSize * n) = true := by
    simp [Write.covers, Write.size, Datum.size, ptrSize]
  rw [hcov]
  simp [Write.cellAt]

/-- Reading slot `i < n` of the address-pointer array written by the forward
lookup: it holds the buffer offset of the i-th address. -/
theorem memAt_addrPtrWrites_lt (base astart w n i : Nat) (hi : i < n) :
    memAt (addrPtrWrites base astart w n) (base + ptrSize * i) =
      some (.ptrCell (some (astart + w * i))) := by
  rw [addrPtrWrites, memAt_append, memAt_singleton]
  have hterm : (Write.mk (base + ptrSize * n) (.ptr none)).covers (base + ptrSize * i) = false := by
    simp only [Write.covers, Write.size, Datum.size, ptrSize]
    rw [Bool.and_eq_false_iff]
    left
    simp only [decide_eq_false_iff_not, not_le]
    omega
  rw [hterm]
  simp only [Bool.false_eq_true, if_false, Option.elim]
  have hcov : (Write.mk (base + ptrSize * i) (.ptr (some (astart + w * i)))).covers
      (base + ptrSize * i) = true := by
    simp [Write.covers, Write.size, Datum.size, ptrSize]
  have hdisj : ∀ j, j < n → j ≠ i →
      (Write.mk (base + ptrSize * j) (.ptr (some (astart + w * j)))).covers
        (base + ptrSize * i) = false := by
    intro j hj hne
    simp only [Write.covers, Write.size, Datum.size, ptrSize]
    rw [Bool.and_eq_false_iff]
    by_cases hlt : j < i
    · right; simp only [decide_eq_false_iff_not, not_lt]; omega
    · left; simp only [decide_eq_false_iff_not, not_le]; omega
  rw [memAt_map_range
    (fun j => Write.mk (base + ptrSize * j) (.ptr (some (astart + w * j))))
    n (base + ptrSize * i) i hi hcov hdisj]
  simp [Write.cellAt]

/-- Indexing into the flattening of a uniform-width list of lists. -/
theorem flatten_getD_uniform (w : Nat) :
    ∀ (L : List (List Nat)) (i j : Nat), (∀ e ∈ L, e.length = w) →
      i < L.length → j < w →
      L.flatten.getD (w * i + j) 0 = (L.getD i []).getD j 0 := by
  intro L
  induction L with
  | nil => intro i j _ hi; simp at hi
  | cons e L ih =>
    intro i j hlen hi hj
    have he : e.length = w := hlen e (List.mem_cons_self e L)
    match i with
    | 0 =>
      rw [List.flatten_cons]
      have h0 : w * 0 + j = j := by ring
      rw [h0, List.getD_append _ _ _ _ (by omega)]
      rfl
    | i + 1 =>
      rw [List.flatten_cons]
      rw [List.getD_append_right _ _ _ _
        (by have hwi : w * (i + 1) = w * i + w := by ring
            omega)]
      have harith : w * (i + 1) + j - e.length = w * i + j := by
        have hwi : w * (i + 1) = w * i + w := by ring
        omega
      rw [harith]
      rw [ih i j (fun x hx => hlen x (List.mem_cons_of_mem _ hx))
        (by simp only [List.length_cons] at hi; omega) hj]
      rfl

/-! ### Exit-path case analyses of the entry points -/

/-- Every run of the forward lookup takes exactly one of six exit paths:
invalid family, coarse capacity failure, open failure, query failure,
precise capacity failure, or success. -/
theorem gethostbyname2_r_cases (v : Variant) (c : NameCollab) (name : List Nat)
    (af : Int) (buflen : Nat) :
    (familyOk v af = false ∧ gethostbyname2_r v c name af buflen = invalidResult) ∨
    (familyOk v af = true ∧ buflen < ptrSize + (name.length + 1) ∧
      gethostbyname2_r v c name af buflen = coarseFailResult) ∨
    (familyOk v af = true ∧ ¬ buflen < ptrSize + (name.length + 1) ∧ c.openFd = none ∧
      gethostbyname2_r v c name af buflen = openFailResult c.openErrno) ∨
    (∃ fd, familyOk v af = true ∧ ¬ buflen < ptrSize + (name.length + 1) ∧
      c.openFd = some fd ∧ c.queryName = none ∧
      gethostbyname2_r v c name af buflen = queryFailResult) ∨
    (∃ fd stream, familyOk v af = true ∧ ¬ buflen < ptrSize + (name.length + 1) ∧
      c.openFd = some fd ∧ c.queryName = some stream ∧
      buflen < ptrSize + (name.length + 1) + (nameAccum af stream).data_len
        + ptrSize * ((nameAccum af stream).count + 1) ∧
      gethostbyname2_r v c name af buflen = preciseFailResult name af) ∨
    (∃ fd stream, familyOk v af = true ∧ ¬ buflen < ptrSize + (name.length + 1) ∧
      c.openFd = some fd ∧ c.queryName = some stream ∧
      ¬ buflen < ptrSize + (name.length + 1) + (nameAccum af stream).data_len
        + ptrSize * ((nameAccum af stream).count + 1) ∧
      gethostbyname2_r v c name af buflen = forwardSuccessResult name af stream) := by
  by_cases hfam : familyOk v af = true
  · by_cases hcoarse : buflen < ptrSize + (name.length + 1)
    · refine Or.inr (Or.inl ⟨hfam, hcoarse, ?_⟩)
      simp [gethostbyname2_r, gethostbyname2Body, finishClose, hfam, hcoarse,
        coarseFailResult]
    · cases hopen : c.openFd with
      | none =>
        refine Or.inr (Or.inr (Or.inl ⟨hfam, hcoarse, rfl, ?_⟩))
        simp [gethostbyname2_r, gethostbyname2Body, finishClose, hfam, hcoarse,
          hopen, openFailResult]
      | some fd =>
        cases hq : c.queryName with
        | none =>
          refine Or.inr (Or.inr (Or.inr (Or.inl ⟨fd, hfam, hcoarse, rfl, rfl, ?_⟩)))
          simp [gethostbyname2_r, gethostbyname2Body, finishClose, hfam, hcoarse,
            hopen, hq, queryFailResult]
        | some stream =>
          by_cases hprec : buflen < ptrSize + (name.length + 1)
              + (nameAccum af stream).data_len
              + ptrSize * ((nameAccum af stream).count + 1)
          · refine Or.inr (Or.inr (Or.inr (Or.inr (Or.inl
              ⟨fd, stream, hfam, hcoarse, rfl, rfl, hprec, ?_⟩))))
            simp [gethostbyname2_r, gethostbyname2Body, finishClose, hfam, hcoarse,
              hopen, hq, hprec, preciseFailResult]
          · refine Or.inr (Or.inr (Or.inr (Or.inr (Or.inr
              ⟨fd, stream, hfam, hcoarse, rfl, rfl, hprec, ?_⟩))))
            simp [gethostbyname2_r, gethostbyname2Body, finishClose, hfam, hcoarse,
              hopen, hq, hprec, forwardSuccessResult]
  · have hfam2 : familyOk v af = false := by
      revert hfam; cases familyOk v af <;> simp
    refine Or.inl ⟨hfam2, ?_⟩
    simp [gethostbyname2_r, gethostbyname2Body, finishClose, hfam2, invalidResult]

/-- Every run of the reverse lookup takes exactly one of seven exit paths:
invalid argument, coarse capacity failure, open failure, query failure,
assert abort (empty query result), precise capacity failure, or success. -/
theorem gethostbyaddr_r_cases (v : Variant) (c : AddrCollab) (addr : List Nat)
    (len : Int) (af : Int) (buflen : Nat) :
    ((len ≠ (widthOf af : Int) ∨ familyOk v af = false) ∧
      gethostbyaddr_r v c addr len af buflen = invalidResult) ∨
    (len = (widthOf af : Int) ∧ familyOk v af = true ∧
      buflen < ptrSize + widthOf af ∧
      gethostbyaddr_r v c addr len af buflen = coarseFailResult) ∨
    (len = (widthOf af : Int) ∧ familyOk v af = true ∧
      ¬ buflen < ptrSize + widthOf af ∧ c.openFd = none ∧
      gethostbyaddr_r v c addr len af buflen = openFailResult c.openErrno) ∨
    (∃ fd, len = (widthOf af : Int) ∧ familyOk v af = true ∧
      ¬ buflen < ptrSize + widthOf af ∧ c.openFd = some fd ∧ c.queryAddr = none ∧
      gethostbyaddr_r v c addr len af buflen = queryFailResult) ∨
    (∃ fd names, len = (widthOf af : Int) ∧ familyOk v af = true ∧
      ¬ buflen < ptrSize + widthOf af ∧ c.openFd = some fd ∧
      c.queryAddr = some names ∧ (addrAccum names).count = 0 ∧
      gethostbyaddr_r v c addr len af buflen = abortResult) ∨
    (∃ fd names, len = (widthOf af : Int) ∧ familyOk v af = true ∧
      ¬ buflen < ptrSize + widthOf af ∧ c.openFd = some fd ∧
      c.queryAddr = some names ∧ ¬ (addrAccum names).count = 0 ∧
      buflen < (((addrAccum names).entries.headD []).length + 1) + ptrSize
        + widthOf af + ptrSize * 2 ∧
      gethostbyaddr_r v c addr len af buflen = reversePreciseFailResult) ∨
    (∃ fd names, len = (widthOf af : Int) ∧ familyOk v af = true ∧
      ¬ buflen < ptrSize + widthOf af ∧ c.openFd = some fd ∧
      c.queryAddr = some names ∧ ¬ (addrAccum names).count = 0 ∧
      ¬ buflen < (((addrAccum names).entries.headD []).length + 1) + ptrSize
        + widthOf af + ptrSize * 2 ∧
      gethostbyaddr_r v c addr len af buflen = reverseSuccessResult addr af names) := by
  by_cases hlen : len = (widthOf af : Int)
  · by_cases hfam : familyOk v af = true
    · by_cases hcoarse : buflen < ptrSize + widthOf af
      · refine Or.inr (Or.inl ⟨hlen, hfam, hcoarse, ?_⟩)
        simp [gethostbyaddr_r, gethostbyaddrBody, finishClose, hlen, hfam,
          hcoarse, coarseFailResult]
      · cases hopen : c.openFd with
        | none =>
          refine Or.inr (Or.inr (Or.inl ⟨hlen, hfam, hcoarse, rfl, ?_⟩))
          simp [gethostbyaddr_r, gethostbyaddrBody, finishClose, hlen, hfam,
            hcoarse, hopen, openFailResult]
        | some fd =>
          cases hq : c.queryAddr with
          | none =>
            refine Or.inr (Or.inr (Or.inr (Or.inl
              ⟨fd, hlen, hfam, hcoarse, rfl, rfl, ?_⟩)))
            simp [gethostbyaddr_r, gethostbyaddrBody, finishClose, hlen, hfam,
              hcoarse, hopen, hq, queryFailResult]
          | some names =>
            by_cases hcnt : (addrAccum names).count = 0
            · refine Or.inr (Or.inr (Or.inr (Or.inr (Or.inl
                ⟨fd, names, hlen, hfam, hcoarse, rfl, rfl, hcnt, ?_⟩))))
              simp [gethostbyaddr_r, gethostbyaddrBody, finishClose, hlen, hfam,
                hcoarse, hopen, hq, hcnt, abortResult]
            · by_cases hprec : buflen < (((addrAccum names).entries.headD []).length + 1)
                  + ptrSize + widthOf af + ptrSize * 2
              · have hprec2 := hprec
                rw [List.headD_eq_head?] at hprec2
                refine Or.inr (Or.inr (Or.inr (Or.inr (Or.inr (Or.inl
                  ⟨fd, names, hlen, hfam, hcoarse, rfl, rfl, hcnt, hprec, ?_⟩)))))
                simp [gethostbyaddr_r, gethostbyaddrBody, finishClose, hlen, hfam,
                  hcoarse, hopen, hq, hcnt, hprec2, reversePreciseFailResult]
              · have hprec2 := hprec
                rw [List.headD_eq_head?] at hprec2
                refine Or.inr (Or.inr (Or.inr (Or.inr (Or.inr (Or.inr
                  ⟨fd, names, hlen, hfam, hcoarse, rfl, rfl, hcnt, hprec, ?_⟩)))))
                simp [gethostbyaddr_r, gethostbyaddrBody, finishClose, hlen, hfam,
                  hcoarse, hopen, hq, hcnt, hprec2, reverseSuccessResult]
    · have hfam2 : familyOk v af = false := by
        revert hfam; cases familyOk v af <;> simp
      refine Or.inl ⟨Or.inr hfam2, ?_⟩
      simp [gethostbyaddr_r, gethostbyaddrBody, finishClose, hfam2, invalidResult]
  · refine Or.inl ⟨Or.inl hlen, ?_⟩
    simp [gethostbyaddr_r, gethostbyaddrBody, finishClose, hlen, invalidResult]

/-! ### Further helper lemmas -/

theorem flatten_length_uniform (w : Nat) :
    ∀ (L : List (List Nat)), (∀ e ∈ L, e.length = w) →
      L.flatten.length = w * L.length := by
  intro L
  induction L with
  | nil => intro _; simp
  | cons e L ih =>
    intro h
    have he : e.length = w := h e (List.mem_cons_self e L)
    simp only [List.flatten_cons, List.length_append, List.length_cons,
      ih (fun x hx => h x (List.mem_cons_of_mem _ hx)), he]
    ring

theorem memAt_addrPtrWrites_below (base astart w n o : Nat) (ho : o < base) :
    memAt (addrPtrWrites base astart w n) o = none := by
  apply memAt_not_covered
  intro wr hmem
  simp only [addrPtrWrites, List.mem_append, List.mem_map, List.mem_range,
    List.mem_singleton] at hmem
  rcases hmem with ⟨i, _, rfl⟩ | rfl
  · simp only [Write.covers, Write.size, Datum.size]
    rw [Bool.and_eq_false_iff]
    left
    simp only [decide_eq_false_iff_not, not_le]
    omega
  · simp only [Write.covers, Write.size, Datum.size]
    rw [Bool.and_eq_false_iff]
    left
    simp only [decide_eq_false_iff_not, not_le]
    omega

theorem finishClose_closeCount (b : CallResult)
    (h : (finishClose b).aborted = false) :
    (finishClose b).closeCount = if (finishClose b).opened then 1 else 0 := by
  by_cases hab : b.aborted
  · rw [finishClose_aborted] at h
    rw [h] at hab
    cases hab
  · simp only [finishClose, hab, Bool.false_eq_true, if_false, if_neg]

/-! ### The claims -/

/-- C9: for every input, `_nss_mdns_gethostbyname_r` returns exactly the same
status and produces exactly the same output state as
`_nss_mdns_gethostbyname2_r` called with the same arguments and the
build-variant default family (AF_INET6 under NSS_IPV6_ONLY, AF_INET
otherwise). -/
theorem claim_C9_gethostbyname_delegates (v : Variant) (c : NameCollab)
    (name : List Nat) (buflen : Nat) :
    gethostbyname_r v c name buflen =
      gethostbyname2_r v c name (defaultAf v) buflen := rfl

/-- C8: on every exit path of both entry points, a query channel that was
successfully opened is closed exactly once before the call returns, and a
channel is never closed if it was never opened. (For the reverse lookup this
is conditional on the call returning at all, i.e. not aborting on the
assert.) -/
theorem claim_C8_channel_released (v : Variant) (c : NameCollab)
    (name : List Nat) (af : Int) (buflen : Nat) (v2 : Variant) (c2 : AddrCollab)
    (addr : List Nat) (len af2 : Int) (buflen2 : Nat) :
    ((gethostbyname2_r v c name af buflen).aborted = false ∧
      (gethostbyname2_r v c name af buflen).closeCount =
        (if (gethostbyname2_r v c name af buflen).opened then 1 else 0)) ∧
    ((gethostbyaddr_r v2 c2 addr len af2 buflen2).aborted = false →
      (gethostbyaddr_r v2 c2 addr len af2 buflen2).closeCount =
        (if (gethostbyaddr_r v2 c2 addr len af2 buflen2).opened then 1 else 0)) := by
  constructor
  · have hab : (gethostbyname2_r v c name af buflen).aborted = false := by
      rcases gethostbyname2_r_cases v c name af buflen with
        ⟨_, h⟩ | ⟨_, _, h⟩ | ⟨_, _, _, h⟩ | ⟨fd, _, _, _, _, h⟩ |
        ⟨fd, stream, _, _, _, _, _, h⟩ | ⟨fd, stream, _, _, _, _, _, h⟩ <;>
        rw [h] <;>
        simp [invalidResult, coarseFailResult, openFailResult, queryFailResult,
          preciseFailResult, forwardSuccessResult]
    exact ⟨hab, finishClose_closeCount (gethostbyname2Body v c name af buflen) hab⟩
  · intro hab
    exact finishClose_closeCount (gethostbyaddrBody v2 c2 addr len af2 buflen2) hab

theorem claim_C8_channel_released_witness :
    (gethostbyname2_r .both ⟨some 3, 0, some [[1, 2, 3, 4]]⟩ [97] AF_INET 64).closeCount = 1 ∧
    (gethostbyaddr_r .both ⟨some 5, 0, some [[104]]⟩ [9, 9, 9, 9] 4 AF_INET 64).closeCount = 1 := by
  have h := claim_C8_channel_released .both ⟨some 3, 0, some [[1, 2, 3, 4]]⟩ [97]
    AF_INET 64 .both ⟨some 5, 0, some [[104]]⟩ [9, 9, 9, 9] 4 AF_INET 64
  constructor
  · rw [h.1.2]; decide
  · rw [h.2 (by decide)]; decide

/-- C5: an address family unsupported by the build (or, for the reverse
lookup, a mismatched address length) makes the entry point set
errnop = EINVAL and h_errnop = NO_RECOVERY and return without opening a
channel or invoking any query-collaborator primitive. -/
theorem claim_C5_invalid_family_no_network :
    (∀ (v : Variant) (c : NameCollab) (name : List Nat) (af : Int) (buflen : Nat),
      familyOk v af = false →
      (gethostbyname2_r v c name af buflen).errnop = some EINVAL ∧
      (gethostbyname2_r v c name af buflen).h_errnop = some NO_RECOVERY ∧
      (gethostbyname2_r v c name af buflen).opened = false ∧
      (gethostbyname2_r v c name af buflen).queried = false ∧
      (gethostbyname2_r v c name af buflen).closeCount = 0) ∧
    (∀ (v : Variant) (c : AddrCollab) (addr : List Nat) (len af : Int) (buflen : Nat),
      (len ≠ ((widthOf af : Nat) : Int) ∨ familyOk v af = false) →
      (gethostbyaddr_r v c addr len af buflen).errnop = some EINVAL ∧
      (gethostbyaddr_r v c addr len af buflen).h_errnop = some NO_RECOVERY ∧
      (gethostbyaddr_r v c addr len af buflen).opened = false ∧
      (gethostbyaddr_r v c addr len af buflen).queried = false ∧
      (gethostbyaddr_r v c addr len af buflen).closeCount = 0) := by
  constructor
  · intro v c name af buflen hfam
    simp [gethostbyname2_r, gethostbyname2Body, finishClose, hfam]
  · intro v c addr len af buflen h
    rcases h with h | h <;>
      simp [gethostbyaddr_r, gethostbyaddrBody, finishClose, h]

theorem claim_C5_invalid_family_no_network_witness :
    (gethostbyname2_r .ipv4Only ⟨some 3, 0, some []⟩ [97] AF_INET6 64).errnop =
      some EINVAL ∧
    (gethostbyaddr_r .both ⟨some 3, 0, some [[104]]⟩ [1, 2, 3] 3 AF_INET 64).opened =
      false := by
  have h1 := (claim_C5_invalid_family_no_network).1 .ipv4Only ⟨some 3, 0, some []⟩
    [97] AF_INET6 64 (by decide)
  have h2 := (claim_C5_invalid_family_no_network).2 .both ⟨some 3, 0, some [[104]]⟩
    [1, 2, 3] 3 AF_INET 64 (Or.inl (by decide))
  exact ⟨h1.1, h2.2.2.1⟩

/-- C4 counterexample: a forward run whose query collaborator reports a
negative result (the path that sets errnop = ETIMEDOUT and
h_errnop = HOST_NOT_FOUND) returns NSS_STATUS_UNAVAIL, not the claimed
NSS_STATUS_NOTFOUND. -/
theorem claim_C4_counterexample :
    (gethostbyname2_r .both ⟨some 3, 7, none⟩ [97] AF_INET 100).errnop =
      some ETIMEDOUT ∧
    (gethostbyname2_r .both ⟨some 3, 7, none⟩ [97] AF_INET 100).h_errnop =
      some HOST_NOT_FOUND ∧
    (gethostbyname2_r .both ⟨some 3, 7, none⟩ [97] AF_INET 100).status =
      .unavail ∧
    (gethostbyname2_r .both ⟨some 3, 7, none⟩ [97] AF_INET 100).status ≠
      .notfound := by decide

/-- C4 (amended): when the query collaborator reports a negative/timeout
result, both entry points return NSS_STATUS_UNAVAIL — the `status` variable
initialised at the top is never reassigned on this path — with
errnop = ETIMEDOUT and h_errnop = HOST_NOT_FOUND, no record produced
(empty writes, untouched hostent) and the channel closed once. -/
theorem claim_C4_amended_query_failure_unavail :
    (∀ (v : Variant) (c : NameCollab) (name : List Nat) (af : Int)
        (buflen fd : Nat),
      familyOk v af = true →
      ¬ buflen < ptrSize + (name.length + 1) →
      c.openFd = some fd → c.queryName = none →
      gethostbyname2_r v c name af buflen = queryFailResult) ∧
    (∀ (v : Variant) (c : AddrCollab) (addr : List Nat) (len af : Int)
        (buflen fd : Nat),
      len = ((widthOf af : Nat) : Int) → familyOk v af = true →
      ¬ buflen < ptrSize + widthOf af →
      c.openFd = some fd → c.queryAddr = none →
      gethostbyaddr_r v c addr len af buflen = queryFailResult) := by
  constructor
  · intro v c name af buflen fd hfam hcoarse hopen hq
    simp [gethostbyname2_r, gethostbyname2Body, finishClose, hfam, hcoarse,
      hopen, hq, queryFailResult]
  · intro v c addr len af buflen fd hlen hfam hcoarse hopen hq
    simp [gethostbyaddr_r, gethostbyaddrBody, finishClose, hlen, hfam, hcoarse,
      hopen, hq, queryFailResult]

theorem claim_C4_amended_query_failure_unavail_witness :
    gethostbyname2_r .both ⟨some 3, 7, none⟩ [97] AF_INET 100 = queryFailResult := by
  exact (claim_C4_amended_query_failure_unavail).1 .both ⟨some 3, 7, none⟩ [97]
    AF_INET 100 3 (by decide) (by decide) rfl rfl

/-- C10: when the reverse-lookup collaborator reports success while having
delivered zero names to the sink, the `assert(u.count > 0 && ...)` fails:
the call aborts (never reaching `finish`, so the channel is not closed and
no status is returned) — a successful-but-empty reverse query is not a
handled case. -/
theorem claim_C10_reverse_empty_query_asserts (v : Variant) (c : AddrCollab)
    (addr : List Nat) (len af : Int) (buflen fd : Nat)
    (hlen : len = ((widthOf af : Nat) : Int)) (hfam : familyOk v af = true)
    (hcoarse : ¬ buflen < ptrSize + widthOf af)
    (hopen : c.openFd = some fd) (hq : c.queryAddr = some []) :
    gethostbyaddr_r v c addr len af buflen = abortResult ∧
    (gethostbyaddr_r v c addr len af buflen).aborted = true := by
  have h : gethostbyaddr_r v c addr len af buflen = abortResult := by
    simp [gethostbyaddr_r, gethostbyaddrBody, finishClose, hlen, hfam, hcoarse,
      hopen, hq, addrAccum, emptyUserdata, abortResult]
  exact ⟨h, by rw [h]; rfl⟩

theorem claim_C10_reverse_empty_query_asserts_witness :
    gethostbyaddr_r .both ⟨some 4, 0, some []⟩ [1, 2, 3, 4] 4 AF_INET 64 =
      abortResult := by
  exact (claim_C10_reverse_empty_query_asserts .both ⟨some 4, 0, some []⟩
    [1, 2, 3, 4] 4 AF_INET 64 4 (by decide) (by decide) (by decide) rfl rfl).1

/-- C6: starting from the empty accumulator, after CAP+K offer invocations
(K > 0, CAP = MAX_ENTRIES = 16) of one kind, `count` equals CAP and
`data_len` equals the sum of the per-entry sizes of exactly the first CAP
offered entries (entry width for addresses, string length + 1 for names);
entries beyond CAP leave the whole accumulator unchanged. -/
theorem claim_C6_accumulator_truncation (l : List (List Nat)) (K : Nat)
    (hK : 0 < K) (hlen : l.length = MAX_ENTRIES + K) :
    ((l.foldl (fun u e => ipv4_callback e u) emptyUserdata).count = MAX_ENTRIES ∧
     (l.foldl (fun u e => ipv4_callback e u) emptyUserdata).data_len =
       ((l.take MAX_ENTRIES).map fun _ => ipv4Size).sum ∧
     l.foldl (fun u e => ipv4_callback e u) emptyUserdata =
       (l.take MAX_ENTRIES).foldl (fun u e => ipv4_callback e u) emptyUserdata) ∧
    ((l.foldl (fun u e => ipv6_callback e u) emptyUserdata).count = MAX_ENTRIES ∧
     (l.foldl (fun u e => ipv6_callback e u) emptyUserdata).data_len =
       ((l.take MAX_ENTRIES).map fun _ => ipv6Size).sum ∧
     l.foldl (fun u e => ipv6_callback e u) emptyUserdata =
       (l.take MAX_ENTRIES).foldl (fun u e => ipv6_callback e u) emptyUserdata) ∧
    ((l.foldl (fun u e => name_callback e u) emptyUserdata).count = MAX_ENTRIES ∧
     (l.foldl (fun u e => name_callback e u) emptyUserdata).data_len =
       ((l.take MAX_ENTRIES).map fun n => n.length + 1).sum ∧
     l.foldl (fun u e => name_callback e u) emptyUserdata =
       (l.take MAX_ENTRIES).foldl (fun u e => name_callback e u) emptyUserdata) := by
  have htt : (l.take MAX_ENTRIES).take MAX_ENTRIES = l.take MAX_ENTRIES := by
    rw [List.take_take, Nat.min_self]
  have hlt : (l.take MAX_ENTRIES).length = MAX_ENTRIES := by
    rw [List.length_take]; omega
  have hmin : min l.length MAX_ENTRIES = MAX_ENTRIES := by omega
  have hmin2 : min (l.take MAX_ENTRIES).length MAX_ENTRIES = MAX_ENTRIES := by
    rw [hlt]; omega
  refine ⟨⟨?_, ?_, ?_⟩, ⟨?_, ?_, ?_⟩, ⟨?_, ?_, ?_⟩⟩ <;>
    simp only [ipv4_callback_eq_offer, ipv6_callback_eq_offer,
      name_callback_eq_offer, foldl_offer_spec, hmin, hmin2, htt]

theorem claim_C6_accumulator_truncation_witness :
    ((List.replicate 17 [7]).foldl (fun u e => ipv4_callback e u)
      emptyUserdata).count = MAX_ENTRIES ∧
    ((List.replicate 17 [7]).foldl (fun u e => name_callback e u)
      emptyUserdata).data_len =
      (((List.replicate 17 [7]).take MAX_ENTRIES).map fun n => n.length + 1).sum := by
  have h := claim_C6_accumulator_truncation (List.replicate 17 [7]) 1
    (by decide) (by decide)
  exact ⟨h.1.1, h.2.2.2.1⟩

/-- C1: for a forward lookup whose accumulator ends with N addresses of
width W = widthOf af, with required = sizeof(char*) + strlen(name) + 1 +
N*W + sizeof(char*)*(N+1): a call with buflen = required passes both
capacity checks and reaches the success path, while a call with
buflen = required - 1 returns NSS_STATUS_TRYAGAIN with errnop = ERANGE. -/
theorem claim_C1_forward_capacity_exact (v : Variant) (c : NameCollab)
    (name : List Nat) (af : Int) (fd : Nat) (stream : List (List Nat))
    (hfam : familyOk v af = true) (hopen : c.openFd = some fd)
    (hq : c.queryName = some stream) :
    (gethostbyname2_r v c name af
        (ptrSize + (name.length + 1) + (nameAccum af stream).count * widthOf af
          + ptrSize * ((nameAccum af stream).count + 1))).status = .success ∧
    (gethostbyname2_r v c name af
        (ptrSize + (name.length + 1) + (nameAccum af stream).count * widthOf af
          + ptrSize * ((nameAccum af stream).count + 1) - 1)).status = .tryagain ∧
    (gethostbyname2_r v c name af
        (ptrSize + (name.length + 1) + (nameAccum af stream).count * widthOf af
          + ptrSize * ((nameAccum af stream).count + 1) - 1)).errnop =
      some ERANGE := by
  have hp : ptrSize = 8 := rfl
  have hpe : ptrSize * ((nameAccum af stream).count + 1) =
      8 * ((nameAccum af stream).count + 1) := by rw [hp]
  have hdl : (nameAccum af stream).data_len =
      (nameAccum af stream).count * widthOf af := by
    rw [nameAccum_spec]
  constructor
  · rcases gethostbyname2_r_cases v c name af
        (ptrSize + (name.length + 1) + (nameAccum af stream).count * widthOf af
          + ptrSize * ((nameAccum af stream).count + 1)) with
      ⟨h1, _⟩ | ⟨_, h2, _⟩ | ⟨_, _, h3, _⟩ | ⟨fd2, _, _, _, h4, _⟩ |
      ⟨fd2, stream2, _, _, _, hq2, h5, _⟩ | ⟨fd2, stream2, _, _, _, hq2, _, heq⟩
    · rw [hfam] at h1; cases h1
    · omega
    · rw [hopen] at h3; cases h3
    · rw [hq] at h4; cases h4
    · rw [hq] at hq2
      cases hq2
      rw [hdl] at h5
      omega
    · rw [heq]
      simp [forwardSuccessResult]
  · have hside :
        (gethostbyname2_r v c name af
          (ptrSize + (name.length + 1) + (nameAccum af stream).count * widthOf af
            + ptrSize * ((nameAccum af stream).count + 1) - 1)) =
          preciseFailResult name af := by
      rcases gethostbyname2_r_cases v c name af
          (ptrSize + (name.length + 1) + (nameAccum af stream).count * widthOf af
            + ptrSize * ((nameAccum af stream).count + 1) - 1) with
        ⟨h1, _⟩ | ⟨_, h2, _⟩ | ⟨_, _, h3, _⟩ | ⟨fd2, _, _, _, h4, _⟩ |
        ⟨fd2, stream2, _, _, _, hq2, _, heq⟩ | ⟨fd2, stream2, _, _, _, hq2, h6, _⟩
      · rw [hfam] at h1; cases h1
      · omega
      · rw [hopen] at h3; cases h3
      · rw [hq] at h4; cases h4
      · exact heq
      · rw [hq] at hq2
        cases hq2
        rw [hdl] at h6
        omega
    rw [hside]
    exact ⟨rfl, rfl⟩

theorem claim_C1_forward_capacity_exact_witness :
    (gethostbyname2_r .both ⟨some 3, 0, some [[1, 2, 3, 4]]⟩ [97] AF_INET 30).status =
      .success ∧
    (gethostbyname2_r .both ⟨some 3, 0, some [[1, 2, 3, 4]]⟩ [97] AF_INET 29).status =
      .tryagain ∧
    (gethostbyname2_r .both ⟨some 3, 0, some [[1, 2, 3, 4]]⟩ [97] AF_INET 29).errnop =
      some ERANGE := by
  have h := claim_C1_forward_capacity_exact .both ⟨some 3, 0, some [[1, 2, 3, 4]]⟩
    [97] AF_INET 3 [[1, 2, 3, 4]] (by decide) rfl rfl
  exact h

/-- C7 counterexample: a forward run that fails the precise capacity check
after the query returns TRYAGAIN with record bytes already in the buffer
(the alias terminator and the name copy) and with hostent fields already
set — refuting the claim that no portion of the record is written on a
non-success exit. -/
theorem claim_C7_counterexample :
    (gethostbyname2_r .both ⟨some 3, 0, some [[1, 2, 3, 4]]⟩ [97, 98] AF_INET 30).status =
      .tryagain ∧
    (gethostbyname2_r .both ⟨some 3, 0, some [[1, 2, 3, 4]]⟩ [97, 98] AF_INET 30).writes ≠
      [] ∧
    (gethostbyname2_r .both ⟨some 3, 0, some [[1, 2, 3, 4]]⟩ [97, 98] AF_INET 30).hres.h_name ≠
      none := by decide

/-- C7 (amended): a call that returns a non-success status never produces a
complete record — h_addr_list is never set and neither the address bytes
nor the address-pointer array are written — and on paths failing before
the record-writing phase nothing is written at all; but a forward call that
fails the precise capacity check has already written the alias terminator
and the name copy (and set h_aliases/h_name/h_addrtype/h_length), and a
reverse call past the query has already written the alias terminator. -/
theorem claim_C7_amended_no_half_record :
    (∀ (v : Variant) (c : NameCollab) (name : List Nat) (af : Int) (buflen : Nat),
      (gethostbyname2_r v c name af buflen).status ≠ .success →
      (gethostbyname2_r v c name af buflen).hres.h_addr_list = none ∧
      ((gethostbyname2_r v c name af buflen).writes = [] ∨
       (gethostbyname2_r v c name af buflen).writes =
         [⟨0, .ptr none⟩, ⟨ptrSize, .bytes (name ++ [0])⟩])) ∧
    (∀ (v : Variant) (c : AddrCollab) (addr : List Nat) (len af : Int) (buflen : Nat),
      (gethostbyaddr_r v c addr len af buflen).status ≠ .success →
      (gethostbyaddr_r v c addr len af buflen).hres.h_addr_list = none ∧
      ((gethostbyaddr_r v c addr len af buflen).writes = [] ∨
       (gethostbyaddr_r v c addr len af buflen).writes = [⟨0, .ptr none⟩])) := by
  constructor
  · intro v c name af buflen hns
    rcases gethostbyname2_r_cases v c name af buflen with
      ⟨_, h⟩ | ⟨_, _, h⟩ | ⟨_, _, _, h⟩ | ⟨fd, _, _, _, _, h⟩ |
      ⟨fd, stream, _, _, _, _, _, h⟩ | ⟨fd, stream, _, _, _, _, _, h⟩
    · rw [h]; exact ⟨rfl, Or.inl rfl⟩
    · rw [h]; exact ⟨rfl, Or.inl rfl⟩
    · rw [h]; exact ⟨rfl, Or.inl rfl⟩
    · rw [h]; exact ⟨rfl, Or.inl rfl⟩
    · rw [h]; exact ⟨rfl, Or.inr rfl⟩
    · rw [h] at hns
      simp [forwardSuccessResult] at hns
  · intro v c addr len af buflen hns
    rcases gethostbyaddr_r_cases v c addr len af buflen with
      ⟨_, h⟩ | ⟨_, _, _, h⟩ | ⟨_, _, _, _, h⟩ | ⟨fd, _, _, _, _, _, h⟩ |
      ⟨fd, names, _, _, _, _, _, _, h⟩ | ⟨fd, names, _, _, _, _, _, _, _, h⟩ |
      ⟨fd, names, _, _, _, _, _, _, _, h⟩
    · rw [h]; exact ⟨rfl, Or.inl rfl⟩
    · rw [h]; exact ⟨rfl, Or.inl rfl⟩
    · rw [h]; exact ⟨rfl, Or.inl rfl⟩
    · rw [h]; exact ⟨rfl, Or.inl rfl⟩
    · rw [h]; exact ⟨rfl, Or.inr rfl⟩
    · rw [h]; exact ⟨rfl, Or.inr rfl⟩
    · rw [h] at hns
      simp [reverseSuccessResult] at hns

theorem claim_C7_amended_no_half_record_witness :
    (gethostbyname2_r .both ⟨some 3, 0, some [[1, 2, 3, 4]]⟩ [97, 98] AF_INET 30).hres.h_addr_list =
      none := by
  exact ((claim_C7_amended_no_half_record).1 .both ⟨some 3, 0, some [[1, 2, 3, 4]]⟩
    [97, 98] AF_INET 30 (by decide)).1

/-- C3: for every call (forward or reverse) that returns
NSS_STATUS_SUCCESS, every pointer stored in the output record refers to an
offset strictly within [buffer, buffer+buflen), and every byte written by
the call lies within that range. -/
theorem claim_C3_pointers_in_bounds :
    (∀ (v : Variant) (c : NameCollab) (name : List Nat) (af : Int)
        (buflen : Nat) (stream : List (List Nat)),
      c.queryName = some stream →
      (∀ a ∈ stream, a.length = widthOf af) →
      (gethostbyname2_r v c name af buflen).status = .success →
      (∀ w ∈ (gethostbyname2_r v c name af buflen).writes,
        w.off + w.size ≤ buflen ∧ w.datum.ptrTargetsBelow buflen) ∧
      (∀ p, (gethostbyname2_r v c name af buflen).hres.h_name = some p → p < buflen) ∧
      (∀ p, (gethostbyname2_r v c name af buflen).hres.h_aliases = some p → p < buflen) ∧
      (∀ p, (gethostbyname2_r v c name af buflen).hres.h_addr_list = some p → p < buflen)) ∧
    (∀ (v : Variant) (c : AddrCollab) (addr : List Nat) (len af : Int)
        (buflen : Nat),
      addr.length = widthOf af →
      (gethostbyaddr_r v c addr len af buflen).status = .success →
      (∀ w ∈ (gethostbyaddr_r v c addr len af buflen).writes,
        w.off + w.size ≤ buflen ∧ w.datum.ptrTargetsBelow buflen) ∧
      (∀ p, (gethostbyaddr_r v c addr len af buflen).hres.h_name = some p → p < buflen) ∧
      (∀ p, (gethostbyaddr_r v c addr len af buflen).hres.h_aliases = some p → p < buflen) ∧
      (∀ p, (gethostbyaddr_r v c addr len af buflen).hres.h_addr_list = some p → p < buflen)) := by
  have hp : ptrSize = 8 := rfl
  constructor
  · intro v c name af buflen stream hq hwid hs
    rcases gethostbyname2_r_cases v c name af buflen with
      ⟨_, h⟩ | ⟨_, _, h⟩ | ⟨_, _, _, h⟩ | ⟨fd, _, _, _, _, h⟩ |
      ⟨fd, stream2, _, _, _, _, _, h⟩ | ⟨fd, stream2, hfam, hcoarse, hopen, hq2, hprec, heq⟩
    · rw [h] at hs; cases hs
    · rw [h] at hs; cases hs
    · rw [h] at hs; cases hs
    · rw [h] at hs; cases hs
    · rw [h] at hs; cases hs
    · rw [hq] at hq2
      cases hq2
      rw [hp] at hcoarse hprec
      have hW : 0 < widthOf af := by
        by_cases h : af = AF_INET <;> simp [widthOf, h, ipv4Size, ipv6Size]
      have hdl : (nameAccum af stream).data_len =
          (nameAccum af stream).count * widthOf af := by rw [nameAccum_spec]
      have hent : (nameAccum af stream).entries = stream.take MAX_ENTRIES := by
        rw [nameAccum_spec]
      have hwents : ∀ e ∈ (nameAccum af stream).entries, e.length = widthOf af := by
        rw [hent]; intro e he; exact hwid e (List.take_subset _ _ he)
      have hentlen : (nameAccum af stream).entries.length =
          (nameAccum af stream).count := by
        rw [hent, nameAccum_spec, List.length_take]
        simp [Nat.min_comm]
      have hflat : (nameAccum af stream).entries.flatten.length =
          (nameAccum af stream).count * widthOf af := by
        rw [flatten_length_uniform _ _ hwents, hentlen, Nat.mul_comm]
      rw [hdl] at hprec
      rw [heq]
      simp only [forwardSuccessResult]
      refine ⟨?_, ?_, ?_, ?_⟩
      · intro w hmem
        simp only [List.mem_append, List.mem_cons, List.not_mem_nil, or_false,
          addrPtrWrites, List.mem_map, List.mem_range] at hmem
        rcases hmem with (rfl | rfl | rfl) | ⟨i, hi, rfl⟩ | rfl
        · refine ⟨?_, by simp [Datum.ptrTargetsBelow]⟩
          simp only [Write.size, Datum.size, hp]
          omega
        · refine ⟨?_, by simp [Datum.ptrTargetsBelow]⟩
          simp only [Write.size, Datum.size, hp, List.length_append,
            List.length_cons, List.length_nil]
          omega
        · refine ⟨?_, by simp [Datum.ptrTargetsBelow]⟩
          simp only [Write.size, Datum.size, hflat, hp]
          omega
        · have hmul : widthOf af * (i + 1) ≤
              widthOf af * (nameAccum af stream).count :=
            Nat.mul_le_mul_left _ hi
          have hmuls : widthOf af * (i + 1) = widthOf af * i + widthOf af :=
            Nat.mul_succ _ _
          have hcomm : widthOf af * (nameAccum af stream).count =
              (nameAccum af stream).count * widthOf af := Nat.mul_comm _ _
          refine ⟨?_, ?_⟩
          · simp only [Write.size, Datum.size, hp]
            omega
          · simp only [Datum.ptrTargetsBelow]
            omega
        · refine ⟨?_, by simp [Datum.ptrTargetsBelow]⟩
          simp only [Write.size, Datum.size, hp]
          omega
      · intro p hpn
        simp only [Option.some.injEq] at hpn
        subst hpn
        rw [hp] at *
        omega
      · intro p hpn
        simp only [Option.some.injEq] at hpn
        omega
      · intro p hpn
        simp only [Option.some.injEq] at hpn
        subst hpn
        omega
  · intro v c addr len af buflen haw hs
    rcases gethostbyaddr_r_cases v c addr len af buflen with
      ⟨_, h⟩ | ⟨_, _, _, h⟩ | ⟨_, _, _, _, h⟩ | ⟨fd, _, _, _, _, _, h⟩ |
      ⟨fd, names, _, _, _, _, _, _, h⟩ | ⟨fd, names, _, _, _, _, _, _, _, h⟩ |
      ⟨fd, names, hlen, hfam, hcoarse, hopen, hq, hcnt, hprec, heq⟩
    · rw [h] at hs; cases hs
    · rw [h] at hs; cases hs
    · rw [h] at hs; cases hs
    · rw [h] at hs; cases hs
    · rw [h] at hs; cases hs
    · rw [h] at hs; cases hs
    · rw [hp] at hcoarse hprec
      rw [heq]
      simp only [reverseSuccessResult]
      refine ⟨?_, ?_, ?_, ?_⟩
      · intro w hmem
        simp only [List.mem_cons, List.not_mem_nil, or_false] at hmem
        rcases hmem with rfl | rfl | rfl | rfl | rfl
        · refine ⟨?_, by simp [Datum.ptrTargetsBelow]⟩
          simp only [Write.size, Datum.size, hp]
          omega
        · refine ⟨?_, by simp [Datum.ptrTargetsBelow]⟩
          simp only [Write.size, Datum.size, hp, List.length_append,
            List.length_cons, List.length_nil]
          omega
        · refine ⟨?_, by simp [Datum.ptrTargetsBelow]⟩
          simp only [Write.size, Datum.size, hp, haw]
          omega
        · refine ⟨?_, ?_⟩
          · simp only [Write.size, Datum.size, hp]
            omega
          · simp only [Datum.ptrTargetsBelow]
            omega
        · refine ⟨?_, by simp [Datum.ptrTargetsBelow]⟩
          simp only [Write.size, Datum.size, hp]
          omega
      · intro p hpn
        simp only [Option.some.injEq] at hpn
        subst hpn
        rw [hp] at *
        omega
      · intro p hpn
        simp only [Option.some.injEq] at hpn
        omega
      · intro p hpn
        simp only [Option.some.injEq] at hpn
        subst hpn
        omega

theorem claim_C3_pointers_in_bounds_witness :
    (gethostbyname2_r .both ⟨some 3, 0, some [[1, 2, 3, 4]]⟩ [97] AF_INET 30).hres.h_name =
      some 8 ∧ 8 < 30 := by
  refine ⟨by decide, ?_⟩
  exact ((claim_C3_pointers_in_bounds).1 .both ⟨some 3, 0, some [[1, 2, 3, 4]]⟩
    [97] AF_INET 30 [[1, 2, 3, 4]] rfl (by decide) (by decide)).2.1 8 (by decide)

/-- C2: after a forward lookup returns NSS_STATUS_SUCCESS, the i-th entry of
the address-pointer array holds the buffer offset of the i-th accumulated
address (whose bytes sit inside the buffer), the entry at index count is
NULL, h_name points at a NUL-terminated copy of the queried name, h_aliases
points at a single NULL entry, and h_addrtype/h_length are the requested
family and its width. -/
theorem claim_C2_forward_record_roundtrip (v : Variant) (c : NameCollab)
    (name : List Nat) (af : Int) (buflen : Nat) (stream : List (List Nat))
    (hq : c.queryName = some stream)
    (hwid : ∀ a ∈ stream, a.length = widthOf af)
    (hs : (gethostbyname2_r v c name af buflen).status = .success) :
    (gethostbyname2_r v c name af buflen).hres.h_addr_list =
      some (ptrSize + (name.length + 1) + (nameAccum af stream).count * widthOf af) ∧
    (gethostbyname2_r v c name af buflen).hres.h_name = some ptrSize ∧
    (gethostbyname2_r v c name af buflen).hres.h_aliases = some 0 ∧
    (gethostbyname2_r v c name af buflen).hres.h_addrtype = some af ∧
    (gethostbyname2_r v c name af buflen).hres.h_length = some (widthOf af) ∧
    (∀ i, i < (nameAccum af stream).count →
      memAt (gethostbyname2_r v c name af buflen).writes
          (ptrSize + (name.length + 1) + (nameAccum af stream).count * widthOf af
            + ptrSize * i) =
        some (.ptrCell (some (ptrSize + (name.length + 1) + widthOf af * i))) ∧
      ptrSize + (name.length + 1) + widthOf af * i + widthOf af ≤ buflen ∧
      (∀ j, j < widthOf af →
        memAt (gethostbyname2_r v c name af buflen).writes
            (ptrSize + (name.length + 1) + widthOf af * i + j) =
          some (.byte (((nameAccum af stream).entries.getD i []).getD j 0)))) ∧
    memAt (gethostbyname2_r v c name af buflen).writes
        (ptrSize + (name.length + 1) + (nameAccum af stream).count * widthOf af
          + ptrSize * (nameAccum af stream).count) =
      some (.ptrCell none) ∧
    (∀ j, j < name.length + 1 →
      memAt (gethostbyname2_r v c name af buflen).writes (ptrSize + j) =
        some (.byte ((name ++ [0]).getD j 0))) ∧
    memAt (gethostbyname2_r v c name af buflen).writes 0 = some (.ptrCell none) := by
  have hp : ptrSize = 8 := rfl
  rcases gethostbyname2_r_cases v c name af buflen with
    ⟨_, h⟩ | ⟨_, _, h⟩ | ⟨_, _, _, h⟩ | ⟨fd, _, _, _, _, h⟩ |
    ⟨fd, stream2, _, _, _, _, _, h⟩ | ⟨fd, stream2, hfam, hcoarse, hopen, hq2, hprec, heq⟩
  · rw [h] at hs; cases hs
  · rw [h] at hs; cases hs
  · rw [h] at hs; cases hs
  · rw [h] at hs; cases hs
  · rw [h] at hs; cases hs
  · rw [hq] at hq2
    cases hq2
    rw [hp] at hcoarse hprec
    have hW : 0 < widthOf af := by
      by_cases h : af = AF_INET <;> simp [widthOf, h, ipv4Size, ipv6Size]
    have hdl : (nameAccum af stream).data_len =
        (nameAccum af stream).count * widthOf af := by rw [nameAccum_spec]
    have hent : (nameAccum af stream).entries = stream.take MAX_ENTRIES := by
      rw [nameAccum_spec]
    have hwents : ∀ e ∈ (nameAccum af stream).entries, e.length = widthOf af := by
      rw [hent]; intro e he; exact hwid e (List.take_subset _ _ he)
    have hentlen : (nameAccum af stream).entries.length =
        (nameAccum af stream).count := by
      rw [hent, nameAccum_spec, List.length_take]
      simp [Nat.min_comm]
    have hflat : (nameAccum af stream).entries.flatten.length =
        (nameAccum af stream).count * widthOf af := by
      rw [flatten_length_uniform _ _ hwents, hentlen, Nat.mul_comm]
    rw [hdl] at hprec
    rw [heq]
    simp only [forwardSuccessResult]
    refine ⟨trivial, trivial, trivial, trivial, trivial, ?_, ?_, ?_, ?_⟩
    · intro i hi
      have hmul : widthOf af * (i + 1) ≤ widthOf af * (nameAccum af stream).count :=
        Nat.mul_le_mul_left _ hi
      have hmuls : widthOf af * (i + 1) = widthOf af * i + widthOf af :=
        Nat.mul_succ _ _
      have hcomm : widthOf af * (nameAccum af stream).count =
          (nameAccum af stream).count * widthOf af := Nat.mul_comm _ _
      refine ⟨?_, by omega, ?_⟩
      · rw [memAt_append, memAt_addrPtrWrites_lt _ _ _ _ i hi]
        rfl
      · intro j hj
        have haw : memAt (addrPtrWrites
            (ptrSize + (name.length + 1) + (nameAccum af stream).count * widthOf af)
            (ptrSize + (name.length + 1)) (widthOf af) (nameAccum af stream).count)
            (ptrSize + (name.length + 1) + widthOf af * i + j) = none := by
          apply memAt_addrPtrWrites_below
          omega
        rw [memAt_append, haw]
        simp only [Option.elim]
        have hc3 : (Write.mk (ptrSize + (name.length + 1))
            (.bytes (nameAccum af stream).entries.flatten)).covers
            (ptrSize + (name.length + 1) + widthOf af * i + j) = true := by
          simp only [Write.covers, Write.size, Datum.size, hflat]
          rw [Bool.and_eq_true]
          constructor <;> simp only [decide_eq_true_eq] <;> omega
        simp only [memAt, List.foldl_cons, List.foldl_nil, hc3, if_true]
        have harr : ptrSize + (name.length + 1) + widthOf af * i + j
            - (ptrSize + (name.length + 1)) = widthOf af * i + j := by omega
        simp only [Write.cellAt, harr]
        rw [flatten_getD_uniform (widthOf af) _ i j hwents (by omega) hj]
    · rw [memAt_append, memAt_addrPtrWrites_term]
      rfl
    · intro j hj
      have haw : memAt (addrPtrWrites
          (ptrSize + (name.length + 1) + (nameAccum af stream).count * widthOf af)
          (ptrSize + (name.length + 1)) (widthOf af) (nameAccum af stream).count)
          (ptrSize + j) = none := by
        apply memAt_addrPtrWrites_below
        omega
      rw [memAt_append, haw]
      simp only [Option.elim]
      have hc3 : (Write.mk (ptrSize + (name.length + 1))
          (.bytes (nameAccum af stream).entries.flatten)).covers (ptrSize + j) = false := by
        simp only [Write.covers, Write.size, Datum.size]
        rw [Bool.and_eq_false_iff]
        left
        simp only [decide_eq_false_iff_not, not_le]
        omega
      have hc2 : (Write.mk ptrSize (.bytes (name ++ [0]))).covers (ptrSize + j) = true := by
        simp only [Write.covers, Write.size, Datum.size, List.length_append,
          List.length_cons, List.length_nil]
        rw [Bool.and_eq_true]
        constructor <;> simp only [decide_eq_true_eq] <;> omega
      simp only [memAt, List.foldl_cons, List.foldl_nil, hc3, hc2,
        Bool.false_eq_true, if_false, if_true]
      have harr : ptrSize + j - ptrSize = j := by omega
      simp only [Write.cellAt, harr]
    · have haw : memAt (addrPtrWrites
          (ptrSize + (name.length + 1) + (nameAccum af stream).count * widthOf af)
          (ptrSize + (name.length + 1)) (widthOf af) (nameAccum af stream).count)
          0 = none := by
        apply memAt_addrPtrWrites_below
        omega
      rw [memAt_append, haw]
      simp only [Option.elim]
      have hc3 : (Write.mk (ptrSize + (name.length + 1))
          (.bytes (nameAccum af stream).entries.flatten)).covers 0 = false := by
        simp only [Write.covers, Write.size, Datum.size]
        rw [Bool.and_eq_false_iff]
        left
        simp only [decide_eq_false_iff_not, not_le]
        omega
      have hc2 : (Write.mk ptrSize (.bytes (name ++ [0]))).covers 0 = false := by
        simp only [Write.covers, Write.size, Datum.size]
        rw [Bool.and_eq_false_iff]
        left
        simp only [decide_eq_false_iff_not, not_le]
        omega
      have hc1 : (Write.mk 0 (Datum.ptr none)).covers 0 = true := by
        simp [Write.covers, Write.size, Datum.size, ptrSize]
      simp only [memAt, List.foldl_cons, List.foldl_nil, hc3, hc2, hc1,
        Bool.false_eq_true, if_false, if_true]
      simp [Write.cellAt]

theorem claim_C2_forward_record_roundtrip_witness :
    (gethostbyname2_r .both ⟨some 3, 0, some [[1, 2, 3, 4]]⟩ [97] AF_INET 30).hres.h_addr_list =
      some 14 ∧
    memAt (gethostbyname2_r .both ⟨some 3, 0, some [[1, 2, 3, 4]]⟩ [97] AF_INET 30).writes 14 =
      some (.ptrCell (some 10)) ∧
    memAt (gethostbyname2_r .both ⟨some 3, 0, some [[1, 2, 3, 4]]⟩ [97] AF_INET 30).writes 10 =
      some (.byte 1) ∧
    memAt (gethostbyname2_r .both ⟨some 3, 0, some [[1, 2, 3, 4]]⟩ [97] AF_INET 30).writes 22 =
      some (.ptrCell none) ∧
    memAt (gethostbyname2_r .both ⟨some 3, 0, some [[1, 2, 3, 4]]⟩ [97] AF_INET 30).writes 8 =
      some (.byte 97) ∧
    memAt (gethostbyname2_r .both ⟨some 3, 0, some [[1, 2, 3, 4]]⟩ [97] AF_INET 30).writes 0 =
      some (.ptrCell none) := by
  have h := claim_C2_forward_record_roundtrip .both ⟨some 3, 0, some [[1, 2, 3, 4]]⟩
    [97] AF_INET 30 [[1, 2, 3, 4]] rfl (by decide) (by decide)
  refine ⟨h.1, ?_, ?_, ?_, ?_, h.2.2.2.2.2.2.2.2⟩
  · exact (h.2.2.2.2.2.1 0 (by decide)).1
  · exact (h.2.2.2.2.2.1 0 (by decide)).2.2 0 (by decide)
  · exact h.2.2.2.2.2.2.1
  · exact h.2.2.2.2.2.2.2.1 0 (by decide)

end NssMdns
